import Mathlib

/-
  Verification development for the finite-difference heat-PDE solver
  (heatpdesolvers/heatpdesolver.hpp).

  The repository ships the class declarations in heatpdesolver.hpp; the
  member-function bodies live in a translation unit that is not part of the
  source tree here.  The definitions below therefore embed the solver family
  as described by the specification and the header's own documentation
  comments, over exact rational arithmetic.  Grids are lists of time rows,
  each row a list of n+1 space values.
-/

/-- Modelled from the spec: the configuration shared by every solver variant
(`HeatPdeSolver`'s protected data): space bounds, time horizon, the two
boundary functions `gleft`, `gright` (functions of tau) and the initial
condition `f` (function of x).  The member-function bodies are missing from
`src/`, so the model follows the spec and the header comments. -/
structure Config where
  xleft : ℚ
  xright : ℚ
  taufinal : ℚ
  gleft : ℚ → ℚ
  gright : ℚ → ℚ
  f : ℚ → ℚ

/-- Space step `delta-x = (xright - xleft)/n` (header comment, lines 44-47). -/
def Config.dx (c : Config) (n : ℕ) : ℚ := (c.xright - c.xleft) / n

/-- Time step `delta-tau = taufinal/m` (header comment, lines 44-47). -/
def Config.dtau (c : Config) (m : ℕ) : ℚ := c.taufinal / m

/-- Courant ratio `alpha = dtau / dx^2`. -/
def Config.alpha (c : Config) (n m : ℕ) : ℚ := c.dtau m / (c.dx n) ^ 2

/-- Space coordinate of grid index `i`. -/
def Config.xcoord (c : Config) (n i : ℕ) : ℚ := c.xleft + i * c.dx n

/-- Time coordinate of grid level `j`. -/
def Config.taucoord (c : Config) (m j : ℕ) : ℚ := j * c.dtau m

/-- Modelled from the spec: the initial time row (time level 0): boundary
entries from the boundary functions at tau = 0, interior entries from the
initial condition `f`. -/
def initRow (c : Config) (n : ℕ) : List ℚ :=
  (List.range (n + 1)).map (fun i =>
    if i = 0 then c.gleft 0
    else if i = n then c.gright 0
    else c.f (c.xcoord n i))

/-- The unconstrained Forward-Euler explicit update of interior entry `i`
from the previous time row:
`alpha * u(i-1,j) + (1 - 2*alpha) * u(i,j) + alpha * u(i+1,j)`. -/
def feEntry (c : Config) (n m : ℕ) (prev : List ℚ) (i : ℕ) : ℚ :=
  c.alpha n m * prev.getD (i - 1) 0
    + (1 - 2 * c.alpha n m) * prev.getD i 0
    + c.alpha n m * prev.getD (i + 1) 0

/-- Modelled from the spec: one Forward-Euler time step — boundaries from the
boundary functions at the new time, interior from the explicit update.  No
linear system is involved. -/
def feStep (c : Config) (n m : ℕ) (prev : List ℚ) (tau1 : ℚ) : List ℚ :=
  (List.range (n + 1)).map (fun i =>
    if i = 0 then c.gleft tau1
    else if i = n then c.gright tau1
    else feEntry c n m prev i)

/-- Modelled from the spec: time row `j` of `ForwardEuler::solve_pde`
(whose body is missing from `src/`). -/
def feRow (c : Config) (n m : ℕ) : ℕ → List ℚ
  | 0 => initRow c n
  | j + 1 => feStep c n m (feRow c n m j) (c.taucoord m (j + 1))

/-- The grid of a total (never-failing) row scheme: time rows 0..m. -/
def natGrid (row : ℕ → List ℚ) (m : ℕ) : List (List ℚ) :=
  (List.range (m + 1)).map row

/-- Modelled from the spec: the injected linear-solver capability.  It is
given the constant sub-, main- and super-diagonal coefficients of a tridiagonal
system and the right-hand side, and returns a solution vector or signals
failure (non-convergence, singular system). -/
def LinearSolver : Type :=
  ℚ → ℚ → ℚ → List ℚ → Except String (List ℚ)

/-- `TriSolves a d e b x` says `x` solves the constant-coefficient
tridiagonal system with sub-diagonal `a`, diagonal `d`, super-diagonal `e`
and right-hand side `b` (out-of-range neighbours count as 0). -/
def TriSolves (a d e : ℚ) (b x : List ℚ) : Prop :=
  x.length = b.length ∧
    ∀ i, i < x.length →
      (if i = 0 then 0 else a * x.getD (i - 1) 0)
          + d * x.getD i 0 + e * x.getD (i + 1) 0
        = b.getD i 0

/-- A linear solver is exact when every vector it returns solves the system
it was given (in particular it has the right length). -/
def ExactSolver (ls : LinearSolver) : Prop :=
  ∀ a d e b y, ls a d e b = .ok y → TriSolves a d e b y

/-- A linear solver returns vectors of the same length as the right-hand
side it was given. -/
def SolverKeepsLength (ls : LinearSolver) : Prop :=
  ∀ a d e b y, ls a d e b = .ok y → y.length = b.length

/-- Modelled from the spec: the Backward-Euler right-hand side for the new
time row — `b_i = u(i,j)` with boundary corrections `alpha * gleft(tau_new)`
added to the first entry and `alpha * gright(tau_new)` to the last (entry
`k` of the vector corresponds to interior space index `i = k+1`). -/
def beRhs (c : Config) (n : ℕ) (alpha : ℚ) (prev : List ℚ) (tau1 : ℚ) :
    List ℚ :=
  (List.range (n - 1)).map (fun k =>
    prev.getD (k + 1) 0
      + (if k = 0 then alpha * c.gleft tau1 else 0)
      + (if k = n - 2 then alpha * c.gright tau1 else 0))

/-- Modelled from the spec: the Crank-Nicolson right-hand side — the weighted
combination `alpha/2, 1 - alpha, alpha/2` of old-row neighbours plus the
boundary corrections `(alpha/2) * gleft(tau_new)` and
`(alpha/2) * gright(tau_new)` (the old boundary values enter through the
neighbour terms). -/
def cnRhs (c : Config) (n : ℕ) (alpha : ℚ) (prev : List ℚ) (tau1 : ℚ) :
    List ℚ :=
  (List.range (n - 1)).map (fun k =>
    (alpha / 2) * prev.getD k 0
      + (1 - alpha) * prev.getD (k + 1) 0
      + (alpha / 2) * prev.getD (k + 2) 0
      + (if k = 0 then (alpha / 2) * c.gleft tau1 else 0)
      + (if k = n - 2 then (alpha / 2) * c.gright tau1 else 0))

/-- Modelled from the spec: time row `j` of `BackwardEuler::solve_pde`
(whose body is missing from `src/`): each new row delegates the tridiagonal
system (diagonal `1 + 2*alpha`, off-diagonals `-alpha`) to the injected
linear solver and re-attaches the boundary values. -/
def beRow (c : Config) (ls : LinearSolver) (n m : ℕ) :
    ℕ → Except String (List ℚ)
  | 0 => .ok (initRow c n)
  | j + 1 =>
    match beRow c ls n m j with
    | .error e => .error e
    | .ok prev =>
      match ls (-(c.alpha n m)) (1 + 2 * c.alpha n m) (-(c.alpha n m))
          (beRhs c n (c.alpha n m) prev (c.taucoord m (j + 1))) with
      | .error e => .error e
      | .ok sol =>
        .ok (c.gleft (c.taucoord m (j + 1))
          :: (sol ++ [c.gright (c.taucoord m (j + 1))]))

/-- Modelled from the spec: time row `j` of `CrankNicolson::solve_pde`
(whose body is missing from `src/`): diagonal `1 + alpha`, off-diagonals
`-alpha/2`, right-hand side `cnRhs`. -/
def cnRow (c : Config) (ls : LinearSolver) (n m : ℕ) :
    ℕ → Except String (List ℚ)
  | 0 => .ok (initRow c n)
  | j + 1 =>
    match cnRow c ls n m j with
    | .error e => .error e
    | .ok prev =>
      match ls (-(c.alpha n m) / 2) (1 + c.alpha n m) (-(c.alpha n m) / 2)
          (cnRhs c n (c.alpha n m) prev (c.taucoord m (j + 1))) with
      | .error e => .error e
      | .ok sol =>
        .ok (c.gleft (c.taucoord m (j + 1))
          :: (sol ++ [c.gright (c.taucoord m (j + 1))]))

/-- Collect the time rows 0..m of a fallible row scheme into a grid,
propagating the first failure unchanged. -/
def collectRows (row : ℕ → Except String (List ℚ)) :
    ℕ → Except String (List (List ℚ))
  | 0 => (row 0).map (fun r => [r])
  | j + 1 =>
    (collectRows row j).bind (fun g => (row (j + 1)).map (fun r => g ++ [r]))

/-- Modelled from the spec: time row `j` of `EarlyExForwardEuler::solve_pde`
(whose body is missing from `src/`): the unconstrained explicit update is
computed first, then each interior entry is clamped to the pointwise maximum
with the exercise value `g(x_i, tau_(j+1))`. -/
def eefeRow (c : Config) (g : ℚ → ℚ → ℚ) (n m : ℕ) : ℕ → List ℚ
  | 0 => initRow c n
  | j + 1 =>
    (List.range (n + 1)).map (fun i =>
      if i = 0 then c.gleft (c.taucoord m (j + 1))
      else if i = n then c.gright (c.taucoord m (j + 1))
      else max (feEntry c n m (eefeRow c g n m j) i)
        (g (c.xcoord n i) (c.taucoord m (j + 1))))

/-- The exercise-value vector at a given time level, over the interior
space indices 1..n-1 (entry `k` is `g(x_(k+1), tau)`). -/
def exVec (c : Config) (g : ℚ → ℚ → ℚ) (n : ℕ) (tau1 : ℚ) : List ℚ :=
  (List.range (n - 1)).map (fun k => g (c.xcoord n (k + 1)) tau1)

/-- Modelled from the spec: one projected-SOR sweep over the zipped list of
(right-hand side, exercise value, current guess) triples, in increasing
index order.  `left` is the most recently updated (already projected) left
neighbour; the Gauss-Seidel candidate uses the tridiagonal coefficients
`(-alpha/2, 1+alpha, -alpha/2)`, then relaxation with factor `w`, then
immediate projection onto the exercise value. -/
def sweepGo (alpha w : ℚ) (left : ℚ) :
    List ((ℚ × ℚ) × ℚ) → List ℚ
  | [] => []
  | t :: rest =>
    let cand := (t.1.1 + (alpha / 2) * left
      + (alpha / 2) * (rest.headD ((0, 0), 0)).2) / (1 + alpha)
    let newv := max (t.2 + w * (cand - t.2)) t.1.2
    newv :: sweepGo alpha w newv rest

/-- One full projected-SOR sweep: entries in increasing index order, each
relaxed and immediately projected before the next entry is visited. -/
def sorSweep (alpha w : ℚ) (b g u : List ℚ) : List ℚ :=
  sweepGo alpha w 0 ((b.zip g).zip u)

/-- Maximum absolute entrywise change between two vectors. -/
def maxAbsDiff (u v : List ℚ) : ℚ :=
  ((u.zip v).map (fun p => |p.1 - p.2|)).foldr max 0

/-- Modelled from the spec: the projected-SOR sweep loop — sweep, then stop
as soon as the maximum absolute change of a full sweep is below `tol`.  The
original loop is uncapped; `fuel` is the defensive iteration cap the spec
requires of a reimplementation (section 7). -/
def sorLoop (alpha w tol : ℚ) (b g : List ℚ) : ℕ → List ℚ → List ℚ
  | 0, u => u
  | fuel + 1, u =>
    let u2 := sorSweep alpha w b g u
    if maxAbsDiff u u2 < tol then u2 else sorLoop alpha w tol b g fuel u2

/-- Modelled from the spec and the header comment of
`EarlyExCrankNicolson::projected_sor` (whose body is missing from `src/`):
the initial guess is hard-coded as the exercise-value vector `g` itself,
not the previous row's solution. -/
def projected_sor (alpha w tol : ℚ) (b g : List ℚ) (fuel : ℕ) : List ℚ :=
  sorLoop alpha w tol b g fuel g

/-- Default over-relaxation factor of `EarlyExCrankNicolson` (header default
argument `w_ = 1.2`). -/
def sorDefaultW : ℚ := 12 / 10

/-- Default tolerance of `EarlyExCrankNicolson` (header default argument
`tol_ = 0.000001`). -/
def sorDefaultTol : ℚ := 1 / 1000000

/-- Modelled from the spec: time row `j` of
`EarlyExCrankNicolson::solve_pde` (whose body is missing from `src/`): the
Crank-Nicolson right-hand side is built from the previous row and handed to
projected SOR together with the exercise vector at the target time, and the
boundary values are attached directly. -/
def eecnRow (c : Config) (g : ℚ → ℚ → ℚ) (w tol : ℚ) (fuel n m : ℕ) :
    ℕ → List ℚ
  | 0 => initRow c n
  | j + 1 =>
    let tau1 := c.taucoord m (j + 1)
    let prev := eecnRow c g w tol fuel n m j
    let sol := projected_sor (c.alpha n m) w tol
      (cnRhs c n (c.alpha n m) prev tau1) (exVec c g n tau1) fuel
    c.gleft tau1 :: (sol ++ [c.gright tau1])

/-- A solve call is valid when the domain is non-degenerate and both
partition counts are positive (spec section 7). -/
def validCall (c : Config) (n m : ℤ) : Bool :=
  decide (c.xleft < c.xright) && decide (0 < c.taufinal)
    && decide (0 < n) && decide (0 < m)

/-- The error value reported for an invalid configuration. -/
def invalidConfig : String := "invalid configuration"

/-- The `ForwardEuler` solver object (its configuration data). -/
structure ForwardEuler where
  base : Config

/-- Modelled from the spec: `ForwardEuler::solve_pde` — reject invalid
configurations at call time, otherwise build the full (m+1)-row grid
explicitly. -/
def ForwardEuler.solve_pde (s : ForwardEuler) (n m : ℤ) :
    Except String (List (List ℚ)) :=
  if validCall s.base n m then
    .ok (natGrid (feRow s.base n.toNat m.toNat) m.toNat)
  else .error invalidConfig

/-- Modelled from the spec: `ForwardEuler::clone` — a deep copy of the
solver object, field by field. -/
def ForwardEuler.clone (s : ForwardEuler) : ForwardEuler :=
  ⟨⟨s.base.xleft, s.base.xright, s.base.taufinal,
    s.base.gleft, s.base.gright, s.base.f⟩⟩

/-- The `BackwardEuler` solver object: configuration plus the injected
linear solver. -/
structure BackwardEuler where
  base : Config
  solver : LinearSolver

/-- Modelled from the spec: `BackwardEuler::solve_pde` — reject invalid
configurations, otherwise march the implicit rows, propagating any linear
solver failure unchanged. -/
def BackwardEuler.solve_pde (s : BackwardEuler) (n m : ℤ) :
    Except String (List (List ℚ)) :=
  if validCall s.base n m then
    collectRows (beRow s.base s.solver n.toNat m.toNat) m.toNat
  else .error invalidConfig

/-- Modelled from the spec: `BackwardEuler::clone`. -/
def BackwardEuler.clone (s : BackwardEuler) : BackwardEuler :=
  ⟨⟨s.base.xleft, s.base.xright, s.base.taufinal,
    s.base.gleft, s.base.gright, s.base.f⟩, s.solver⟩

/-- The `CrankNicolson` solver object: configuration plus the injected
linear solver. -/
structure CrankNicolson where
  base : Config
  solver : LinearSolver

/-- Modelled from the spec: `CrankNicolson::solve_pde`. -/
def CrankNicolson.solve_pde (s : CrankNicolson) (n m : ℤ) :
    Except String (List (List ℚ)) :=
  if validCall s.base n m then
    collectRows (cnRow s.base s.solver n.toNat m.toNat) m.toNat
  else .error invalidConfig

/-- Modelled from the spec: `CrankNicolson::clone`. -/
def CrankNicolson.clone (s : CrankNicolson) : CrankNicolson :=
  ⟨⟨s.base.xleft, s.base.xright, s.base.taufinal,
    s.base.gleft, s.base.gright, s.base.f⟩, s.solver⟩

/-- The `EarlyExForwardEuler` solver object: configuration plus the
early-exercise checker (the exercise function `g(x, tau)`). -/
structure EarlyExForwardEuler where
  base : Config
  checker : ℚ → ℚ → ℚ

/-- Modelled from the spec: `EarlyExForwardEuler::solve_pde`. -/
def EarlyExForwardEuler.solve_pde (s : EarlyExForwardEuler) (n m : ℤ) :
    Except String (List (List ℚ)) :=
  if validCall s.base n m then
    .ok (natGrid (eefeRow s.base s.checker n.toNat m.toNat) m.toNat)
  else .error invalidConfig

/-- Modelled from the spec: `EarlyExForwardEuler::clone`. -/
def EarlyExForwardEuler.clone (s : EarlyExForwardEuler) :
    EarlyExForwardEuler :=
  ⟨⟨s.base.xleft, s.base.xright, s.base.taufinal,
    s.base.gleft, s.base.gright, s.base.f⟩, s.checker⟩

/-- The `EarlyExCrankNicolson` solver object: configuration, checker and
the SOR parameters `w` and `tol`. -/
structure EarlyExCrankNicolson where
  base : Config
  checker : ℚ → ℚ → ℚ
  w : ℚ
  tol : ℚ

/-- Modelled from the spec: `EarlyExCrankNicolson::solve_pde`; `fuel` is
the defensive cap on SOR sweeps per row. -/
def EarlyExCrankNicolson.solve_pde (s : EarlyExCrankNicolson) (fuel : ℕ)
    (n m : ℤ) : Except String (List (List ℚ)) :=
  if validCall s.base n m then
    .ok (natGrid
      (eecnRow s.base s.checker s.w s.tol fuel n.toNat m.toNat) m.toNat)
  else .error invalidConfig

/-- Modelled from the spec: `EarlyExCrankNicolson::clone`. -/
def EarlyExCrankNicolson.clone (s : EarlyExCrankNicolson) :
    EarlyExCrankNicolson :=
  ⟨⟨s.base.xleft, s.base.xright, s.base.taufinal,
    s.base.gleft, s.base.gright, s.base.f⟩, s.checker, s.w, s.tol⟩

/-- Build an `EarlyExCrankNicolson` with the header's default SOR
parameters `w_ = 1.2`, `tol_ = 0.000001`. -/
def EarlyExCrankNicolson.mkDefault (c : Config) (g : ℚ → ℚ → ℚ) :
    EarlyExCrankNicolson :=
  ⟨c, g, sorDefaultW, sorDefaultTol⟩

/-! ### Concrete instances used by the witnesses -/

/-- A concrete configuration on the unit square. -/
def cfg0 : Config :=
  ⟨0, 1, 1, fun _ => 0, fun t => t, fun x => x⟩

/-- A concrete exact linear solver for systems of size at most one. -/
def tinySolver : LinearSolver := fun _ d _ b =>
  match b with
  | [] => .ok []
  | [b0] => if d = 0 then .error "singular system" else .ok [b0 / d]
  | _ => .error "unsupported size"

/-- A concrete always-failing linear solver. -/
def failSolver : LinearSolver := fun _ _ _ _ => .error "singular system"

/-- A concrete exercise function used by witnesses. -/
def exf : ℚ → ℚ → ℚ := fun x _ => x

/-! ### Basic list lemmas -/

lemma rangeMap_getD {α : Type} (f : ℕ → α) (N i : ℕ) (h : i < N) (d : α) :
    ((List.range N).map f).getD i d = f i := by
  rw [List.getD_eq_getElem?_getD]
  simp [List.getElem?_map, List.getElem?_range, h]

lemma rangeMap_getD_ge {α : Type} (f : ℕ → α) (N i : ℕ) (h : N ≤ i) (d : α) :
    ((List.range N).map f).getD i d = d := by
  rw [List.getD_eq_getElem?_getD]
  have : ((List.range N).map f).length ≤ i := by simpa using h
  simp [List.getElem?_eq_none this]

lemma getD_of_len_le {α : Type} (l : List α) (i : ℕ) (d : α)
    (h : l.length ≤ i) : l.getD i d = d := by
  rw [List.getD_eq_getElem?_getD]
  simp [List.getElem?_eq_none h]

lemma zip_getD {α β : Type} (u : List α) (v : List β) (k : ℕ)
    (du : α) (dv : β) (hk : k < u.length) (hv : k < v.length) :
    (u.zip v).getD k (du, dv) = (u.getD k du, v.getD k dv) := by
  have hz : k < (u.zip v).length := by simp [List.length_zip]; omega
  rw [List.getD_eq_getElem?_getD, List.getElem?_eq_getElem hz]
  rw [List.getD_eq_getElem?_getD, List.getElem?_eq_getElem hk]
  rw [List.getD_eq_getElem?_getD, List.getElem?_eq_getElem hv]
  simp [List.getElem_zip]

lemma consAppend_getD_zero (a b d : ℚ) (l : List ℚ) :
    (a :: (l ++ [b])).getD 0 d = a := rfl

lemma consAppend_getD_last (a b d : ℚ) (l : List ℚ) :
    (a :: (l ++ [b])).getD (l.length + 1) d = b := by
  rw [List.getD_eq_getElem?_getD]
  simp

lemma consAppend_getD_mid (a b d : ℚ) (l : List ℚ) (i : ℕ)
    (h1 : 1 ≤ i) (h2 : i ≤ l.length) :
    (a :: (l ++ [b])).getD i d = l.getD (i - 1) d := by
  obtain ⟨k, rfl⟩ : ∃ k, i = k + 1 := ⟨i - 1, by omega⟩
  simp only [List.getD_cons_succ, Nat.add_sub_cancel]
  rw [List.getD_eq_getElem?_getD, List.getD_eq_getElem?_getD]
  have hk : k < l.length := by omega
  rw [List.getElem?_append, if_pos hk]

lemma consAppend_length (a b : ℚ) (l : List ℚ) :
    (a :: (l ++ [b])).length = l.length + 2 := by simp

/-! ### Lengths of the model's rows and vectors -/

lemma initRow_length (c : Config) (n : ℕ) : (initRow c n).length = n + 1 := by
  simp [initRow]

lemma feStep_length (c : Config) (n m : ℕ) (prev : List ℚ) (tau1 : ℚ) :
    (feStep c n m prev tau1).length = n + 1 := by simp [feStep]

lemma feRow_length (c : Config) (n m j : ℕ) :
    (feRow c n m j).length = n + 1 := by
  cases j with
  | zero => exact initRow_length c n
  | succ j => exact feStep_length c n m _ _

lemma beRhs_length (c : Config) (n : ℕ) (alpha : ℚ) (prev : List ℚ)
    (tau1 : ℚ) : (beRhs c n alpha prev tau1).length = n - 1 := by
  simp [beRhs]

lemma cnRhs_length (c : Config) (n : ℕ) (alpha : ℚ) (prev : List ℚ)
    (tau1 : ℚ) : (cnRhs c n alpha prev tau1).length = n - 1 := by
  simp [cnRhs]

lemma exVec_length (c : Config) (g : ℚ → ℚ → ℚ) (n : ℕ) (tau1 : ℚ) :
    (exVec c g n tau1).length = n - 1 := by simp [exVec]

lemma eefeRow_length (c : Config) (g : ℚ → ℚ → ℚ) (n m j : ℕ) :
    (eefeRow c g n m j).length = n + 1 := by
  cases j with
  | zero => exact initRow_length c n
  | succ j => simp [eefeRow]

lemma sweepGo_length (alpha w left : ℚ) (l : List ((ℚ × ℚ) × ℚ)) :
    (sweepGo alpha w left l).length = l.length := by
  induction l generalizing left with
  | nil => rfl
  | cons t rest ih => simp [sweepGo, ih]

lemma sorSweep_length (alpha w : ℚ) (b g u : List ℚ)
    (hb : b.length = g.length) (hu : u.length = g.length) :
    (sorSweep alpha w b g u).length = g.length := by
  rw [sorSweep, sweepGo_length]
  simp [List.length_zip, hb, hu]

lemma sorLoop_length (alpha w tol : ℚ) (b g : List ℚ) (fuel : ℕ)
    (u : List ℚ) (hb : b.length = g.length) (hu : u.length = g.length) :
    (sorLoop alpha w tol b g fuel u).length = g.length := by
  induction fuel generalizing u with
  | zero => exact hu
  | succ fuel ih =>
    rw [sorLoop]
    by_cases h : maxAbsDiff u (sorSweep alpha w b g u) < tol
    · simp only [h, if_true]
      exact sorSweep_length alpha w b g u hb hu
    · simp only [h, if_false]
      exact ih _ (sorSweep_length alpha w b g u hb hu)

lemma projected_sor_length (alpha w tol : ℚ) (b g : List ℚ) (fuel : ℕ)
    (hb : b.length = g.length) :
    (projected_sor alpha w tol b g fuel).length = g.length :=
  sorLoop_length alpha w tol b g fuel g hb rfl

lemma eecnRow_length (c : Config) (g : ℚ → ℚ → ℚ) (w tol : ℚ)
    (fuel n m : ℕ) (hn : 1 ≤ n) (j : ℕ) :
    (eecnRow c g w tol fuel n m j).length = n + 1 := by
  cases j with
  | zero => exact initRow_length c n
  | succ j =>
    rw [eecnRow, consAppend_length, projected_sor_length]
    · rw [exVec_length]; omega
    · rw [cnRhs_length, exVec_length]

/-! ### Entry lemmas for the explicit rows -/

lemma initRow_getD_left (c : Config) (n : ℕ) :
    (initRow c n).getD 0 0 = c.gleft 0 := by
  rw [initRow, rangeMap_getD _ _ _ (by omega)]
  simp

lemma initRow_getD_right (c : Config) (n : ℕ) (hn : 1 ≤ n) :
    (initRow c n).getD n 0 = c.gright 0 := by
  rw [initRow, rangeMap_getD _ _ _ (by omega)]
  have : n ≠ 0 := by omega
  simp [this]

lemma initRow_getD_mid (c : Config) (n i : ℕ) (h1 : 1 ≤ i) (h2 : i ≤ n - 1)
    (hn : 1 ≤ n) : (initRow c n).getD i 0 = c.f (c.xcoord n i) := by
  rw [initRow, rangeMap_getD _ _ _ (by omega)]
  have hi0 : i ≠ 0 := by omega
  have hin : i ≠ n := by omega
  simp [hi0, hin]

lemma feStep_getD_left (c : Config) (n m : ℕ) (prev : List ℚ) (tau1 : ℚ) :
    (feStep c n m prev tau1).getD 0 0 = c.gleft tau1 := by
  rw [feStep, rangeMap_getD _ _ _ (by omega)]
  simp

lemma feStep_getD_right (c : Config) (n m : ℕ) (prev : List ℚ) (tau1 : ℚ)
    (hn : 1 ≤ n) : (feStep c n m prev tau1).getD n 0 = c.gright tau1 := by
  rw [feStep, rangeMap_getD _ _ _ (by omega)]
  have : n ≠ 0 := by omega
  simp [this]

lemma feStep_getD_mid (c : Config) (n m : ℕ) (prev : List ℚ) (tau1 : ℚ)
    (i : ℕ) (h1 : 1 ≤ i) (h2 : i ≤ n - 1) (hn : 1 ≤ n) :
    (feStep c n m prev tau1).getD i 0 = feEntry c n m prev i := by
  rw [feStep, rangeMap_getD _ _ _ (by omega)]
  have hi0 : i ≠ 0 := by omega
  have hin : i ≠ n := by omega
  simp [hi0, hin]

lemma eefeRow_getD_left (c : Config) (g : ℚ → ℚ → ℚ) (n m j : ℕ) :
    (eefeRow c g n m j).getD 0 0 = c.gleft (c.taucoord m j) := by
  cases j with
  | zero =>
    have : c.taucoord m 0 = 0 := by simp [Config.taucoord]
    rw [this]; exact initRow_getD_left c n
  | succ j =>
    rw [eefeRow, rangeMap_getD _ _ _ (by omega)]
    simp

lemma eefeRow_getD_right (c : Config) (g : ℚ → ℚ → ℚ) (n m j : ℕ)
    (hn : 1 ≤ n) :
    (eefeRow c g n m j).getD n 0 = c.gright (c.taucoord m j) := by
  cases j with
  | zero =>
    have : c.taucoord m 0 = 0 := by simp [Config.taucoord]
    rw [this]; exact initRow_getD_right c n hn
  | succ j =>
    rw [eefeRow, rangeMap_getD _ _ _ (by omega)]
    have : n ≠ 0 := by omega
    simp [this]

lemma eefeRow_getD_mid (c : Config) (g : ℚ → ℚ → ℚ) (n m j i : ℕ)
    (h1 : 1 ≤ i) (h2 : i ≤ n - 1) (hn : 1 ≤ n) :
    (eefeRow c g n m (j + 1)).getD i 0
      = max (feEntry c n m (eefeRow c g n m j) i)
          (g (c.xcoord n i) (c.taucoord m (j + 1))) := by
  rw [eefeRow, rangeMap_getD _ _ _ (by omega)]
  have hi0 : i ≠ 0 := by omega
  have hin : i ≠ n := by omega
  simp [hi0, hin]

/-! ### Grid accessors -/

lemma natGrid_length (row : ℕ → List ℚ) (m : ℕ) :
    (natGrid row m).length = m + 1 := by simp [natGrid]

lemma natGrid_getD (row : ℕ → List ℚ) (m j : ℕ) (hj : j ≤ m) :
    (natGrid row m).getD j [] = row j := by
  rw [natGrid, rangeMap_getD _ _ _ (by omega)]

lemma collectRows_ok_length (row : ℕ → Except String (List ℚ)) (m : ℕ)
    (g : List (List ℚ)) (h : collectRows row m = .ok g) :
    g.length = m + 1 := by
  induction m generalizing g with
  | zero =>
    rw [collectRows] at h
    cases hr : row 0 with
    | ok r => rw [hr] at h; simp [Except.map] at h; simp [← h]
    | error e => rw [hr] at h; simp [Except.map] at h
  | succ m ih =>
    rw [collectRows] at h
    cases hc : collectRows row m with
    | ok gp =>
      rw [hc] at h
      cases hr : row (m + 1) with
      | ok r =>
        rw [hr] at h
        simp [Except.bind, Except.map] at h
        have := ih gp hc
        simp [← h, this]
      | error e => rw [hr] at h; simp [Except.bind, Except.map] at h
    | error e => rw [hc] at h; simp [Except.bind] at h

lemma collectRows_ok_row (row : ℕ → Except String (List ℚ)) (m : ℕ)
    (g : List (List ℚ)) (h : collectRows row m = .ok g) :
    ∀ j, j ≤ m → row j = .ok (g.getD j []) := by
  induction m generalizing g with
  | zero =>
    intro j hj
    interval_cases j
    rw [collectRows] at h
    cases hr : row 0 with
    | ok r => rw [hr] at h; simp [Except.map] at h; simp [← h]
    | error e => rw [hr] at h; simp [Except.map] at h
  | succ m ih =>
    intro j hj
    rw [collectRows] at h
    cases hc : collectRows row m with
    | ok gp =>
      rw [hc] at h
      cases hr : row (m + 1) with
      | ok r =>
        rw [hr] at h
        simp [Except.bind, Except.map] at h
        have hlen := collectRows_ok_length row m gp hc
        rcases Nat.lt_or_ge j (m + 1) with hlt | hge
        · have := ih gp hc j (by omega)
          rw [this, ← h]
          congr 1
          rw [List.getD_eq_getElem?_getD, List.getD_eq_getElem?_getD]
          rw [List.getElem?_append, if_pos (by omega)]
        · have hj1 : j = m + 1 := by omega
          subst hj1
          rw [hr, ← h]
          congr 1
          rw [List.getD_eq_getElem?_getD]
          have : gp.length ≤ m + 1 := by omega
          rw [List.getElem?_append, if_neg (by omega)]
          simp [hlen]
      | error e => rw [hr] at h; simp [Except.bind, Except.map] at h
    | error e => rw [hc] at h; simp [Except.bind] at h

lemma collectRows_error_exists (row : ℕ → Except String (List ℚ)) (m : ℕ)
    (e : String) (h : collectRows row m = .error e) :
    ∃ k, k ≤ m ∧ row k = .error e := by
  induction m with
  | zero =>
    rw [collectRows] at h
    cases hr : row 0 with
    | ok r => rw [hr] at h; simp [Except.map] at h
    | error e' =>
      rw [hr] at h; simp [Except.map] at h
      exact ⟨0, le_refl 0, by rw [hr, h]⟩
  | succ m ih =>
    rw [collectRows] at h
    cases hc : collectRows row m with
    | ok gp =>
      rw [hc] at h
      cases hr : row (m + 1) with
      | ok r => rw [hr] at h; simp [Except.bind, Except.map] at h
      | error e' =>
        rw [hr] at h
        simp [Except.bind, Except.map] at h
        exact ⟨m + 1, le_refl _, by rw [hr, h]⟩
    | error e' =>
      rw [hc] at h
      simp [Except.bind] at h
      obtain ⟨k, hk, hrk⟩ := ih (h ▸ hc)
      exact ⟨k, by omega, hrk⟩

lemma row_error_at (row : ℕ → Except String (List ℚ))
    (hprop : ∀ j e', row j = .error e' → row (j + 1) = .error e')
    (k j : ℕ) (hkj : k ≤ j) (e : String) (h : row k = .error e) :
    row j = .error e := by
  induction j with
  | zero =>
    have hk0 : k = 0 := by omega
    exact hk0 ▸ h
  | succ j ih =>
    rcases Nat.lt_or_ge j k with hlt | hge
    · have hk1 : k = j + 1 := by omega
      exact hk1 ▸ h
    · exact hprop j e (ih hge)

lemma collectRows_of_row_error (row : ℕ → Except String (List ℚ)) (m k : ℕ)
    (e : String) (hk : k ≤ m) (hrk : row k = .error e)
    (hprop : ∀ j e', row j = .error e' → row (j + 1) = .error e') :
    collectRows row m = .error e := by
  cases m with
  | zero =>
    have hk0 : k = 0 := by omega
    have h0 : row 0 = .error e := hk0 ▸ hrk
    rw [collectRows, h0]; rfl
  | succ m =>
    rw [collectRows]
    cases hc : collectRows row m with
    | ok gp =>
      have hm1 : row (m + 1) = .error e :=
        row_error_at row hprop k (m + 1) hk e hrk
      rw [hm1]
      rfl
    | error e' =>
      obtain ⟨k', hk', hrk'⟩ := collectRows_error_exists row m e' hc
      have h1 : row (m + 1) = .error e' :=
        row_error_at row hprop k' (m + 1) (by omega) e' hrk'
      have h2 : row (m + 1) = .error e :=
        row_error_at row hprop k (m + 1) hk e hrk
      have hee : e' = e := by
        rw [h1] at h2
        exact (Except.error.inj h2)
      rw [hee]
      rfl

/-! ### Projected SOR: sweep characterization and projection invariant -/

lemma sweepGo_getD (a w : ℚ) (left : ℚ) (l : List ((ℚ × ℚ) × ℚ)) (k : ℕ)
    (hk : k < l.length) :
    (sweepGo a w left l).getD k 0 =
      max ((l.getD k ((0, 0), 0)).2
            + w * (((l.getD k ((0, 0), 0)).1.1
                + (a / 2) * (if k = 0 then left
                    else (sweepGo a w left l).getD (k - 1) 0)
                + (a / 2) * (l.getD (k + 1) ((0, 0), 0)).2) / (1 + a)
              - (l.getD k ((0, 0), 0)).2))
        ((l.getD k ((0, 0), 0)).1.2) := by
  induction l generalizing left k with
  | nil => simp at hk
  | cons t rest ih =>
    cases k with
    | zero =>
      simp only [sweepGo, List.getD_cons_zero, List.getD_cons_succ, if_pos rfl]
      cases rest <;> simp
    | succ k =>
      have hk' : k < rest.length := by simpa using hk
      simp only [sweepGo, List.getD_cons_succ]
      rw [ih _ k hk']
      cases k with
      | zero => simp
      | succ k => simp

lemma zip3_getD (b g u : List ℚ) (k : ℕ) (hb : b.length = g.length)
    (hu : u.length = g.length) (hk : k < g.length) :
    ((b.zip g).zip u).getD k ((0, 0), 0)
      = ((b.getD k 0, g.getD k 0), u.getD k 0) := by
  rw [zip_getD _ _ _ (0, 0) 0 (by simp [List.length_zip]; omega) (by omega),
    zip_getD _ _ _ 0 0 (by omega) (by omega)]

lemma sorSweep_getD (a w : ℚ) (b g u : List ℚ) (k : ℕ)
    (hb : b.length = g.length) (hu : u.length = g.length)
    (hk : k < g.length) :
    (sorSweep a w b g u).getD k 0 =
      max (u.getD k 0
            + w * ((b.getD k 0
                + (a / 2) * (if k = 0 then 0
                    else (sorSweep a w b g u).getD (k - 1) 0)
                + (a / 2) * u.getD (k + 1) 0) / (1 + a)
              - u.getD k 0))
        (g.getD k 0) := by
  have hzz : ((b.zip g).zip u).length = g.length := by
    simp [List.length_zip, hb, hu]
  simp only [sorSweep]
  rw [sweepGo_getD a w 0 _ k (by rw [hzz]; exact hk)]
  have hk1 : (((b.zip g).zip u).getD (k + 1) ((0, 0), 0)).2
      = u.getD (k + 1) 0 := by
    rcases Nat.lt_or_ge (k + 1) g.length with hlt | hge
    · rw [zip3_getD b g u (k + 1) hb hu hlt]
    · rw [getD_of_len_le _ _ _ (by rw [hzz]; omega),
        getD_of_len_le _ _ _ (by omega)]
  rw [zip3_getD b g u k hb hu hk, hk1]

lemma sorSweep_ge (a w : ℚ) (b g u : List ℚ) (k : ℕ)
    (hb : b.length = g.length) (hu : u.length = g.length)
    (hk : k < g.length) :
    g.getD k 0 ≤ (sorSweep a w b g u).getD k 0 := by
  rw [sorSweep_getD a w b g u k hb hu hk]
  exact le_max_right _ _

lemma sorLoop_ge (a w tol : ℚ) (b g : List ℚ) (fuel : ℕ) (u : List ℚ)
    (hb : b.length = g.length) (hu : u.length = g.length)
    (hge : ∀ k, k < g.length → g.getD k 0 ≤ u.getD k 0) :
    ∀ k, k < g.length → g.getD k 0 ≤ (sorLoop a w tol b g fuel u).getD k 0 := by
  induction fuel generalizing u with
  | zero => exact hge
  | succ fuel ih =>
    intro k hk
    rw [sorLoop]
    by_cases h : maxAbsDiff u (sorSweep a w b g u) < tol
    · simp only [h, if_true]
      exact sorSweep_ge a w b g u k hb hu hk
    · simp only [h, if_false]
      exact ih (sorSweep a w b g u)
        (sorSweep_length a w b g u hb hu)
        (fun k hk => sorSweep_ge a w b g u k hb hu hk) k hk

lemma projected_sor_ge (a w tol : ℚ) (b g : List ℚ) (fuel : ℕ)
    (hb : b.length = g.length) :
    ∀ k, k < g.length →
      g.getD k 0 ≤ (projected_sor a w tol b g fuel).getD k 0 :=
  sorLoop_ge a w tol b g fuel g hb rfl (fun _ _ => le_refl _)

lemma exVec_getD (c : Config) (g : ℚ → ℚ → ℚ) (n : ℕ) (tau1 : ℚ) (k : ℕ)
    (hk : k < n - 1) :
    (exVec c g n tau1).getD k 0 = g (c.xcoord n (k + 1)) tau1 := by
  rw [exVec, rangeMap_getD _ _ _ hk]

lemma eecnRow_getD_mid (c : Config) (g : ℚ → ℚ → ℚ) (w tol : ℚ)
    (fuel n m j i : ℕ) (h1 : 1 ≤ i) (h2 : i ≤ n - 1) (hn : 1 ≤ n) :
    (eecnRow c g w tol fuel n m (j + 1)).getD i 0
      = (projected_sor (c.alpha n m) w tol
          (cnRhs c n (c.alpha n m) (eecnRow c g w tol fuel n m j)
            (c.taucoord m (j + 1)))
          (exVec c g n (c.taucoord m (j + 1))) fuel).getD (i - 1) 0 := by
  rw [eecnRow]
  rw [consAppend_getD_mid _ _ _ _ i h1]
  rw [projected_sor_length _ _ _ _ _ _ (by rw [cnRhs_length, exVec_length]),
    exVec_length]
  omega

lemma eecnRow_ge (c : Config) (g : ℚ → ℚ → ℚ) (w tol : ℚ)
    (fuel n m j i : ℕ) (h1 : 1 ≤ i) (h2 : i ≤ n - 1) (hn : 1 ≤ n) :
    g (c.xcoord n i) (c.taucoord m (j + 1))
      ≤ (eecnRow c g w tol fuel n m (j + 1)).getD i 0 := by
  rw [eecnRow_getD_mid c g w tol fuel n m j i h1 h2 hn]
  have hlen : (cnRhs c n (c.alpha n m) (eecnRow c g w tol fuel n m j)
      (c.taucoord m (j + 1))).length
      = (exVec c g n (c.taucoord m (j + 1))).length := by
    rw [cnRhs_length, exVec_length]
  have := projected_sor_ge (c.alpha n m) w tol _ _ fuel hlen (i - 1)
    (by rw [exVec_length]; omega)
  rw [exVec_getD c g n _ (i - 1) (by omega)] at this
  have hi : i - 1 + 1 = i := by omega
  rw [hi] at this
  exact this

/-! ### Unpacking the solve wrappers -/

lemma validCall_true_iff (c : Config) (n m : ℤ) :
    validCall c n m = true ↔
      c.xleft < c.xright ∧ 0 < c.taufinal ∧ 0 < n ∧ 0 < m := by
  simp [validCall, Bool.and_eq_true, decide_eq_true_iff, and_assoc]

lemma fe_solve_ok (s : ForwardEuler) (n m : ℤ) (grid : List (List ℚ))
    (h : s.solve_pde n m = .ok grid) :
    validCall s.base n m = true ∧
      grid = natGrid (feRow s.base n.toNat m.toNat) m.toNat := by
  rw [ForwardEuler.solve_pde] at h
  by_cases hv : validCall s.base n m = true
  · rw [if_pos hv] at h
    exact ⟨hv, (Except.ok.inj h).symm⟩
  · rw [if_neg hv] at h
    exact absurd h (by simp)

lemma eefe_solve_ok (s : EarlyExForwardEuler) (n m : ℤ)
    (grid : List (List ℚ)) (h : s.solve_pde n m = .ok grid) :
    validCall s.base n m = true ∧
      grid = natGrid (eefeRow s.base s.checker n.toNat m.toNat) m.toNat := by
  rw [EarlyExForwardEuler.solve_pde] at h
  by_cases hv : validCall s.base n m = true
  · rw [if_pos hv] at h
    exact ⟨hv, (Except.ok.inj h).symm⟩
  · rw [if_neg hv] at h
    exact absurd h (by simp)

lemma eecn_solve_ok (s : EarlyExCrankNicolson) (fuel : ℕ) (n m : ℤ)
    (grid : List (List ℚ)) (h : s.solve_pde fuel n m = .ok grid) :
    validCall s.base n m = true ∧
      grid = natGrid
        (eecnRow s.base s.checker s.w s.tol fuel n.toNat m.toNat) m.toNat := by
  rw [EarlyExCrankNicolson.solve_pde] at h
  by_cases hv : validCall s.base n m = true
  · rw [if_pos hv] at h
    exact ⟨hv, (Except.ok.inj h).symm⟩
  · rw [if_neg hv] at h
    exact absurd h (by simp)

lemma be_solve_ok (s : BackwardEuler) (n m : ℤ) (grid : List (List ℚ))
    (h : s.solve_pde n m = .ok grid) :
    validCall s.base n m = true ∧
      collectRows (beRow s.base s.solver n.toNat m.toNat) m.toNat
        = .ok grid := by
  rw [BackwardEuler.solve_pde] at h
  by_cases hv : validCall s.base n m = true
  · rw [if_pos hv] at h
    exact ⟨hv, h⟩
  · rw [if_neg hv] at h
    exact absurd h (by simp)

lemma cn_solve_ok (s : CrankNicolson) (n m : ℤ) (grid : List (List ℚ))
    (h : s.solve_pde n m = .ok grid) :
    validCall s.base n m = true ∧
      collectRows (cnRow s.base s.solver n.toNat m.toNat) m.toNat
        = .ok grid := by
  rw [CrankNicolson.solve_pde] at h
  by_cases hv : validCall s.base n m = true
  · rw [if_pos hv] at h
    exact ⟨hv, h⟩
  · rw [if_neg hv] at h
    exact absurd h (by simp)

/-! ### Row shape lemmas for the implicit schemes -/

lemma beRow_ok_succ (c : Config) (ls : LinearSolver) (n m j : ℕ)
    (r : List ℚ) (h : beRow c ls n m (j + 1) = .ok r) :
    ∃ prev sol, beRow c ls n m j = .ok prev ∧
      ls (-(c.alpha n m)) (1 + 2 * c.alpha n m) (-(c.alpha n m))
          (beRhs c n (c.alpha n m) prev (c.taucoord m (j + 1))) = .ok sol ∧
      r = c.gleft (c.taucoord m (j + 1))
        :: (sol ++ [c.gright (c.taucoord m (j + 1))]) := by
  rw [beRow] at h
  split at h
  · exact absurd h (by simp)
  · rename_i prev hp
    split at h
    · exact absurd h (by simp)
    · rename_i sol hs
      exact ⟨prev, sol, hp, hs, (Except.ok.inj h).symm⟩

lemma cnRow_ok_succ (c : Config) (ls : LinearSolver) (n m j : ℕ)
    (r : List ℚ) (h : cnRow c ls n m (j + 1) = .ok r) :
    ∃ prev sol, cnRow c ls n m j = .ok prev ∧
      ls (-(c.alpha n m) / 2) (1 + c.alpha n m) (-(c.alpha n m) / 2)
          (cnRhs c n (c.alpha n m) prev (c.taucoord m (j + 1))) = .ok sol ∧
      r = c.gleft (c.taucoord m (j + 1))
        :: (sol ++ [c.gright (c.taucoord m (j + 1))]) := by
  rw [cnRow] at h
  split at h
  · exact absurd h (by simp)
  · rename_i prev hp
    split at h
    · exact absurd h (by simp)
    · rename_i sol hs
      exact ⟨prev, sol, hp, hs, (Except.ok.inj h).symm⟩

lemma beRow_error_succ (c : Config) (ls : LinearSolver) (n m j : ℕ)
    (e : String) (h : beRow c ls n m j = .error e) :
    beRow c ls n m (j + 1) = .error e := by
  rw [beRow, h]

lemma cnRow_error_succ (c : Config) (ls : LinearSolver) (n m j : ℕ)
    (e : String) (h : cnRow c ls n m j = .error e) :
    cnRow c ls n m (j + 1) = .error e := by
  rw [cnRow, h]

lemma beRow_ok_length (c : Config) (ls : LinearSolver) (n m : ℕ)
    (hlen : SolverKeepsLength ls) (hn : 1 ≤ n) (j : ℕ) (r : List ℚ)
    (h : beRow c ls n m j = .ok r) : r.length = n + 1 := by
  cases j with
  | zero =>
    rw [beRow] at h
    rw [← Except.ok.inj h, initRow_length]
  | succ j =>
    obtain ⟨prev, sol, _, hs, hr⟩ := beRow_ok_succ c ls n m j r h
    have hsl : sol.length = n - 1 := by
      rw [hlen _ _ _ _ _ hs, beRhs_length]
    rw [hr, consAppend_length, hsl]
    omega

lemma cnRow_ok_length (c : Config) (ls : LinearSolver) (n m : ℕ)
    (hlen : SolverKeepsLength ls) (hn : 1 ≤ n) (j : ℕ) (r : List ℚ)
    (h : cnRow c ls n m j = .ok r) : r.length = n + 1 := by
  cases j with
  | zero =>
    rw [cnRow] at h
    rw [← Except.ok.inj h, initRow_length]
  | succ j =>
    obtain ⟨prev, sol, _, hs, hr⟩ := cnRow_ok_succ c ls n m j r h
    have hsl : sol.length = n - 1 := by
      rw [hlen _ _ _ _ _ hs, cnRhs_length]
    rw [hr, consAppend_length, hsl]
    omega

lemma tinySolver_exact : ExactSolver tinySolver := by
  intro a d e b y h
  match b with
  | [] =>
    simp only [tinySolver] at h
    have hy : y = [] := (Except.ok.inj h).symm
    subst hy
    exact ⟨rfl, fun i hi => by simp at hi⟩
  | [b0] =>
    simp only [tinySolver] at h
    by_cases hd : d = 0
    · rw [if_pos hd] at h
      exact absurd h (by simp)
    · rw [if_neg hd] at h
      have hy : y = [b0 / d] := (Except.ok.inj h).symm
      subst hy
      refine ⟨rfl, fun i hi => ?_⟩
      have hi0 : i = 0 := by
        simp only [List.length_cons, List.length_nil] at hi
        omega
      subst hi0
      simp only [if_pos rfl, List.getD_cons_zero]
      have h1 : ([b0 / d] : List ℚ).getD 1 0 = 0 := by
        apply getD_of_len_le
        simp
      rw [h1]
      field_simp
  | b0 :: b1 :: bs =>
    simp only [tinySolver] at h
    exact absurd h (by simp)

lemma tinySolver_len : SolverKeepsLength tinySolver := by
  intro a d e b y h
  exact ((tinySolver_exact a d e b y h).1).trans rfl

/-! ### Boundary entries of the remaining row schemes -/

lemma feRow_getD_left (c : Config) (n m j : ℕ) :
    (feRow c n m j).getD 0 0 = c.gleft (c.taucoord m j) := by
  cases j with
  | zero =>
    have h0 : c.taucoord m 0 = 0 := by simp [Config.taucoord]
    rw [h0]
    exact initRow_getD_left c n
  | succ j => exact feStep_getD_left c n m _ _

lemma feRow_getD_right (c : Config) (n m j : ℕ) (hn : 1 ≤ n) :
    (feRow c n m j).getD n 0 = c.gright (c.taucoord m j) := by
  cases j with
  | zero =>
    have h0 : c.taucoord m 0 = 0 := by simp [Config.taucoord]
    rw [h0]
    exact initRow_getD_right c n hn
  | succ j => exact feStep_getD_right c n m _ _ hn

lemma eecnRow_getD_left (c : Config) (g : ℚ → ℚ → ℚ) (w tol : ℚ)
    (fuel n m j : ℕ) :
    (eecnRow c g w tol fuel n m j).getD 0 0
      = c.gleft (c.taucoord m j) := by
  cases j with
  | zero =>
    have h0 : c.taucoord m 0 = 0 := by simp [Config.taucoord]
    rw [h0]
    exact initRow_getD_left c n
  | succ j => rw [eecnRow]; rfl

lemma eecnRow_getD_right (c : Config) (g : ℚ → ℚ → ℚ) (w tol : ℚ)
    (fuel n m j : ℕ) (hn : 1 ≤ n) :
    (eecnRow c g w tol fuel n m j).getD n 0
      = c.gright (c.taucoord m j) := by
  cases j with
  | zero =>
    have h0 : c.taucoord m 0 = 0 := by simp [Config.taucoord]
    rw [h0]
    exact initRow_getD_right c n hn
  | succ j =>
    rw [eecnRow]
    have hsl : (projected_sor (c.alpha n m) w tol
        (cnRhs c n (c.alpha n m) (eecnRow c g w tol fuel n m j)
          (c.taucoord m (j + 1)))
        (exVec c g n (c.taucoord m (j + 1))) fuel).length = n - 1 := by
      rw [projected_sor_length _ _ _ _ _ _ (by rw [cnRhs_length, exVec_length]),
        exVec_length]
    have hlast := consAppend_getD_last (c.gleft (c.taucoord m (j + 1)))
      (c.gright (c.taucoord m (j + 1))) 0
      (projected_sor (c.alpha n m) w tol
        (cnRhs c n (c.alpha n m) (eecnRow c g w tol fuel n m j)
          (c.taucoord m (j + 1)))
        (exVec c g n (c.taucoord m (j + 1))) fuel)
    rw [hsl] at hlast
    have hidx : (n - 1) + 1 = n := by omega
    rw [hidx] at hlast
    exact hlast

lemma implicitRow_getD_left (c : Config) (sol : List ℚ) (tau1 : ℚ) :
    (c.gleft tau1 :: (sol ++ [c.gright tau1])).getD 0 0 = c.gleft tau1 := rfl

lemma implicitRow_getD_right (c : Config) (sol : List ℚ) (tau1 : ℚ) (n : ℕ)
    (hn : 1 ≤ n) (hsl : sol.length = n - 1) :
    (c.gleft tau1 :: (sol ++ [c.gright tau1])).getD n 0 = c.gright tau1 := by
  have hnn : n = sol.length + 1 := by omega
  rw [hnn]
  exact consAppend_getD_last _ _ _ _

/-! ### The claims -/

/-- C3: for every valid configuration and every time row j, ForwardEuler's
solve computes each interior entry of row j+1 from row j by
`u(i,j+1) = alpha*u(i-1,j) + (1-2*alpha)*u(i,j) + alpha*u(i+1,j)`, with
`alpha = dtau/dx^2`; no linear system is involved (the scheme has no solver
argument at all) and no constraint on alpha is required (no stability check
at solve time). -/
theorem C3_forwardEuler_explicit_update (s : ForwardEuler) (n m : ℤ)
    (grid : List (List ℚ)) (h : s.solve_pde n m = .ok grid) (j i : ℕ)
    (hj : j + 1 ≤ m.toNat) (h1 : 1 ≤ i) (h2 : i ≤ n.toNat - 1) :
    (grid.getD (j + 1) []).getD i 0
      = s.base.alpha n.toNat m.toNat * (grid.getD j []).getD (i - 1) 0
        + (1 - 2 * s.base.alpha n.toNat m.toNat)
            * (grid.getD j []).getD i 0
        + s.base.alpha n.toNat m.toNat * (grid.getD j []).getD (i + 1) 0 := by
  obtain ⟨hv, hg⟩ := fe_solve_ok s n m grid h
  obtain ⟨_, _, hnp, hmp⟩ := (validCall_true_iff _ _ _).mp hv
  have hn : 1 ≤ n.toNat := by omega
  subst hg
  rw [natGrid_getD _ _ _ (by omega), natGrid_getD _ _ _ (by omega)]
  rw [feRow]
  rw [feStep_getD_mid s.base n.toNat m.toNat _ _ i h1 h2 hn]
  rfl

/-- Witness for C3 at a concrete configuration and grid point. -/
theorem C3_witness :
    ((natGrid (feRow cfg0 2 1) 1).getD 1 []).getD 1 0
      = cfg0.alpha 2 1 * ((natGrid (feRow cfg0 2 1) 1).getD 0 []).getD 0 0
        + (1 - 2 * cfg0.alpha 2 1)
            * ((natGrid (feRow cfg0 2 1) 1).getD 0 []).getD 1 0
        + cfg0.alpha 2 1 * ((natGrid (feRow cfg0 2 1) 1).getD 0 []).getD 2 0 :=
  C3_forwardEuler_explicit_update ⟨cfg0⟩ 2 1 (natGrid (feRow cfg0 2 1) 1)
    rfl 0 1 (by decide) (by decide) (by decide)

/-- C6: each interior entry produced by EarlyExForwardEuler equals the
pointwise maximum of the unconstrained Forward-Euler explicit update (from
the same previous row) and the exercise value at that grid point. -/
theorem C6_eefe_clamped_update (s : EarlyExForwardEuler) (n m : ℤ)
    (grid : List (List ℚ)) (h : s.solve_pde n m = .ok grid) (j i : ℕ)
    (hj : j + 1 ≤ m.toNat) (h1 : 1 ≤ i) (h2 : i ≤ n.toNat - 1) :
    (grid.getD (j + 1) []).getD i 0
      = max (s.base.alpha n.toNat m.toNat * (grid.getD j []).getD (i - 1) 0
          + (1 - 2 * s.base.alpha n.toNat m.toNat)
              * (grid.getD j []).getD i 0
          + s.base.alpha n.toNat m.toNat * (grid.getD j []).getD (i + 1) 0)
        (s.checker (s.base.xcoord n.toNat i)
          (s.base.taucoord m.toNat (j + 1))) := by
  obtain ⟨hv, hg⟩ := eefe_solve_ok s n m grid h
  obtain ⟨_, _, hnp, hmp⟩ := (validCall_true_iff _ _ _).mp hv
  have hn : 1 ≤ n.toNat := by omega
  subst hg
  rw [natGrid_getD _ _ _ (by omega), natGrid_getD _ _ _ (by omega)]
  rw [eefeRow_getD_mid s.base s.checker n.toNat m.toNat j i h1 h2 hn]
  rfl

/-- Witness for C6 at a concrete configuration and grid point. -/
theorem C6_witness :
    ((natGrid (eefeRow cfg0 exf 2 1) 1).getD 1 []).getD 1 0
      = max (cfg0.alpha 2 1
            * ((natGrid (eefeRow cfg0 exf 2 1) 1).getD 0 []).getD 0 0
          + (1 - 2 * cfg0.alpha 2 1)
              * ((natGrid (eefeRow cfg0 exf 2 1) 1).getD 0 []).getD 1 0
          + cfg0.alpha 2 1
              * ((natGrid (eefeRow cfg0 exf 2 1) 1).getD 0 []).getD 2 0)
        (exf (cfg0.xcoord 2 1) (cfg0.taucoord 1 1)) :=
  C6_eefe_clamped_update ⟨cfg0, exf⟩ 2 1
    (natGrid (eefeRow cfg0 exf 2 1) 1) rfl 0 1
    (by decide) (by decide) (by decide)

/-- C1: for both early-exercise variants, every interior entry of every
computed time row j = 1..m dominates the exercise function at the same
grid coordinates. -/
theorem C1_early_exercise_lower_bound (s1 : EarlyExForwardEuler)
    (s2 : EarlyExCrankNicolson) (fuel : ℕ) (n m : ℤ) :
    (∀ grid, s1.solve_pde n m = .ok grid → ∀ j i, 1 ≤ j → j ≤ m.toNat →
      1 ≤ i → i ≤ n.toNat - 1 →
      s1.checker (s1.base.xcoord n.toNat i) (s1.base.taucoord m.toNat j)
        ≤ (grid.getD j []).getD i 0) ∧
    (∀ grid, s2.solve_pde fuel n m = .ok grid → ∀ j i, 1 ≤ j → j ≤ m.toNat →
      1 ≤ i → i ≤ n.toNat - 1 →
      s2.checker (s2.base.xcoord n.toNat i) (s2.base.taucoord m.toNat j)
        ≤ (grid.getD j []).getD i 0) := by
  constructor
  · intro grid h j i hj1 hjm hi1 hi2
    obtain ⟨hv, hg⟩ := eefe_solve_ok s1 n m grid h
    obtain ⟨_, _, hnp, hmp⟩ := (validCall_true_iff _ _ _).mp hv
    have hn : 1 ≤ n.toNat := by omega
    subst hg
    rw [natGrid_getD _ _ _ (by omega)]
    obtain ⟨j', rfl⟩ : ∃ j', j = j' + 1 := ⟨j - 1, by omega⟩
    rw [eefeRow_getD_mid s1.base s1.checker n.toNat m.toNat j' i hi1 hi2 hn]
    exact le_max_right _ _
  · intro grid h j i hj1 hjm hi1 hi2
    obtain ⟨hv, hg⟩ := eecn_solve_ok s2 fuel n m grid h
    obtain ⟨_, _, hnp, hmp⟩ := (validCall_true_iff _ _ _).mp hv
    have hn : 1 ≤ n.toNat := by omega
    subst hg
    rw [natGrid_getD _ _ _ (by omega)]
    obtain ⟨j', rfl⟩ : ∃ j', j = j' + 1 := ⟨j - 1, by omega⟩
    exact eecnRow_ge s2.base s2.checker s2.w s2.tol fuel n.toNat m.toNat j' i
      hi1 hi2 hn

/-- Witness for C1 at a concrete configuration and grid point, for both
early-exercise variants. -/
theorem C1_witness :
    (exf (cfg0.xcoord 2 1) (cfg0.taucoord 1 1)
      ≤ ((natGrid (eefeRow cfg0 exf 2 1) 1).getD 1 []).getD 1 0) ∧
    (exf (cfg0.xcoord 2 1) (cfg0.taucoord 1 1)
      ≤ ((natGrid (eecnRow cfg0 exf (12 / 10) (1 / 1000000) 5 2 1) 1).getD
          1 []).getD 1 0) :=
  ⟨(C1_early_exercise_lower_bound ⟨cfg0, exf⟩
      ⟨cfg0, exf, 12 / 10, 1 / 1000000⟩ 5 2 1).1
      (natGrid (eefeRow cfg0 exf 2 1) 1) rfl 1 1
      (by decide) (by decide) (by decide) (by decide),
    (C1_early_exercise_lower_bound ⟨cfg0, exf⟩
      ⟨cfg0, exf, 12 / 10, 1 / 1000000⟩ 5 2 1).2
      (natGrid (eecnRow cfg0 exf (12 / 10) (1 / 1000000) 5 2 1) 1) rfl 1 1
      (by decide) (by decide) (by decide) (by decide)⟩

/-- C8: every solver variant rejects a call with non-positive partition
counts or a degenerate domain at solve-call time, reporting an invalid
configuration instead of building any grid. -/
theorem C8_invalid_configuration_rejected (c : Config)
    (ls1 ls2 : LinearSolver) (g1 g2 : ℚ → ℚ → ℚ) (w tol : ℚ) (fuel : ℕ)
    (n m : ℤ)
    (hbad : n ≤ 0 ∨ m ≤ 0 ∨ c.xright ≤ c.xleft ∨ c.taufinal ≤ 0) :
    ForwardEuler.solve_pde ⟨c⟩ n m = .error invalidConfig ∧
    BackwardEuler.solve_pde ⟨c, ls1⟩ n m = .error invalidConfig ∧
    CrankNicolson.solve_pde ⟨c, ls2⟩ n m = .error invalidConfig ∧
    EarlyExForwardEuler.solve_pde ⟨c, g1⟩ n m = .error invalidConfig ∧
    EarlyExCrankNicolson.solve_pde ⟨c, g2, w, tol⟩ fuel n m
      = .error invalidConfig := by
  have hv : ¬ validCall c n m = true := by
    rw [validCall_true_iff]
    rintro ⟨h1, h2, h3, h4⟩
    rcases hbad with hb | hb | hb | hb
    · omega
    · omega
    · exact absurd h1 (not_lt.mpr hb)
    · exact absurd h2 (not_lt.mpr hb)
  refine ⟨?_, ?_, ?_, ?_, ?_⟩
  · rw [ForwardEuler.solve_pde, if_neg hv]
  · rw [BackwardEuler.solve_pde, if_neg hv]
  · rw [CrankNicolson.solve_pde, if_neg hv]
  · rw [EarlyExForwardEuler.solve_pde, if_neg hv]
  · rw [EarlyExCrankNicolson.solve_pde, if_neg hv]

/-- Witness for C8: a call with n = 0 is rejected by all five variants. -/
theorem C8_witness :
    ForwardEuler.solve_pde ⟨cfg0⟩ 0 1 = .error invalidConfig ∧
    BackwardEuler.solve_pde ⟨cfg0, tinySolver⟩ 0 1
      = .error invalidConfig ∧
    CrankNicolson.solve_pde ⟨cfg0, tinySolver⟩ 0 1
      = .error invalidConfig ∧
    EarlyExForwardEuler.solve_pde ⟨cfg0, exf⟩ 0 1 = .error invalidConfig ∧
    EarlyExCrankNicolson.solve_pde ⟨cfg0, exf, 12 / 10, 1 / 1000000⟩ 5 0 1
      = .error invalidConfig :=
  C8_invalid_configuration_rejected cfg0 tinySolver tinySolver exf exf
    (12 / 10) (1 / 1000000) 5 0 1 (Or.inl (by decide))

/-- C10: for every concrete solver variant, clone returns an object equal
to the original (all configuration fields copied), hence observationally
equivalent: solve on the clone returns the same result as solve on the
original for every n, m; the original is untouched (the model is pure). -/
theorem C10_clone_observational_equivalence (s1 : ForwardEuler)
    (s2 : BackwardEuler) (s3 : CrankNicolson) (s4 : EarlyExForwardEuler)
    (s5 : EarlyExCrankNicolson) (fuel : ℕ) (n m : ℤ) :
    s1.clone = s1 ∧
    ForwardEuler.solve_pde s1.clone n m = ForwardEuler.solve_pde s1 n m ∧
    s2.clone = s2 ∧
    BackwardEuler.solve_pde s2.clone n m = BackwardEuler.solve_pde s2 n m ∧
    s3.clone = s3 ∧
    CrankNicolson.solve_pde s3.clone n m = CrankNicolson.solve_pde s3 n m ∧
    s4.clone = s4 ∧
    EarlyExForwardEuler.solve_pde s4.clone n m
      = EarlyExForwardEuler.solve_pde s4 n m ∧
    s5.clone = s5 ∧
    EarlyExCrankNicolson.solve_pde s5.clone fuel n m
      = EarlyExCrankNicolson.solve_pde s5 fuel n m :=
  ⟨rfl, rfl, rfl, rfl, rfl, rfl, rfl, rfl, rfl, rfl⟩

lemma beRow_boundary (c : Config) (ls : LinearSolver) (n m : ℕ)
    (hlen : SolverKeepsLength ls) (hn : 1 ≤ n) (j : ℕ) (r : List ℚ)
    (h : beRow c ls n m j = .ok r) :
    r.getD 0 0 = c.gleft (c.taucoord m j)
      ∧ r.getD n 0 = c.gright (c.taucoord m j) := by
  cases j with
  | zero =>
    rw [beRow] at h
    have hr : r = initRow c n := (Except.ok.inj h).symm
    subst hr
    have h0 : c.taucoord m 0 = 0 := by simp [Config.taucoord]
    rw [h0]
    exact ⟨initRow_getD_left c n, initRow_getD_right c n hn⟩
  | succ j =>
    obtain ⟨prev, sol, _, hs, hr⟩ := beRow_ok_succ c ls n m j r h
    subst hr
    refine ⟨rfl, ?_⟩
    exact implicitRow_getD_right c sol _ n hn
      (by rw [hlen _ _ _ _ _ hs, beRhs_length])

lemma cnRow_boundary (c : Config) (ls : LinearSolver) (n m : ℕ)
    (hlen : SolverKeepsLength ls) (hn : 1 ≤ n) (j : ℕ) (r : List ℚ)
    (h : cnRow c ls n m j = .ok r) :
    r.getD 0 0 = c.gleft (c.taucoord m j)
      ∧ r.getD n 0 = c.gright (c.taucoord m j) := by
  cases j with
  | zero =>
    rw [cnRow] at h
    have hr : r = initRow c n := (Except.ok.inj h).symm
    subst hr
    have h0 : c.taucoord m 0 = 0 := by simp [Config.taucoord]
    rw [h0]
    exact ⟨initRow_getD_left c n, initRow_getD_right c n hn⟩
  | succ j =>
    obtain ⟨prev, sol, _, hs, hr⟩ := cnRow_ok_succ c ls n m j r h
    subst hr
    refine ⟨rfl, ?_⟩
    exact implicitRow_getD_right c sol _ n hn
      (by rw [hlen _ _ _ _ _ hs, cnRhs_length])

lemma beRow_succ_eq (c : Config) (ls : LinearSolver) (n m j : ℕ)
    (prev sol : List ℚ) (hp : beRow c ls n m j = .ok prev)
    (hs : ls (-(c.alpha n m)) (1 + 2 * c.alpha n m) (-(c.alpha n m))
      (beRhs c n (c.alpha n m) prev (c.taucoord m (j + 1))) = .ok sol) :
    beRow c ls n m (j + 1)
      = .ok (c.gleft (c.taucoord m (j + 1))
          :: (sol ++ [c.gright (c.taucoord m (j + 1))])) := by
  rw [beRow, hp]
  dsimp only
  rw [hs]

lemma cnRow_succ_eq (c : Config) (ls : LinearSolver) (n m j : ℕ)
    (prev sol : List ℚ) (hp : cnRow c ls n m j = .ok prev)
    (hs : ls (-(c.alpha n m) / 2) (1 + c.alpha n m) (-(c.alpha n m) / 2)
      (cnRhs c n (c.alpha n m) prev (c.taucoord m (j + 1))) = .ok sol) :
    cnRow c ls n m (j + 1)
      = .ok (c.gleft (c.taucoord m (j + 1))
          :: (sol ++ [c.gright (c.taucoord m (j + 1))])) := by
  rw [cnRow, hp]
  dsimp only
  rw [hs]

lemma collectRows_zero_eq (row : ℕ → Except String (List ℚ)) (r : List ℚ)
    (hr : row 0 = .ok r) : collectRows row 0 = .ok [r] := by
  rw [collectRows, hr]
  rfl

lemma collectRows_succ_eq (row : ℕ → Except String (List ℚ)) (j : ℕ)
    (g : List (List ℚ)) (r : List ℚ) (hg : collectRows row j = .ok g)
    (hr : row (j + 1) = .ok r) :
    collectRows row (j + 1) = .ok (g ++ [r]) := by
  rw [collectRows, hg, hr]
  rfl

/-- C5: on success, every solver variant's grid has its two boundary lines
(space indices 0 and n, at every time level j = 0..m) exactly equal to the
boundary functions at tau_j, and its initial line (time level 0, interior
space indices) exactly equal to the initial condition at x_i — exact
rational equality. -/
theorem C5_boundary_and_initial_exact (s1 : ForwardEuler)
    (s2 : BackwardEuler) (s3 : CrankNicolson) (s4 : EarlyExForwardEuler)
    (s5 : EarlyExCrankNicolson) (fuel : ℕ) (n m : ℤ)
    (hl2 : SolverKeepsLength s2.solver)
    (hl3 : SolverKeepsLength s3.solver) :
    (∀ grid, s1.solve_pde n m = .ok grid →
      (∀ j, j ≤ m.toNat →
        (grid.getD j []).getD 0 0
            = s1.base.gleft (s1.base.taucoord m.toNat j)
          ∧ (grid.getD j []).getD n.toNat 0
            = s1.base.gright (s1.base.taucoord m.toNat j)) ∧
      (∀ i, 1 ≤ i → i ≤ n.toNat - 1 →
        (grid.getD 0 []).getD i 0 = s1.base.f (s1.base.xcoord n.toNat i))) ∧
    (∀ grid, s2.solve_pde n m = .ok grid →
      (∀ j, j ≤ m.toNat →
        (grid.getD j []).getD 0 0
            = s2.base.gleft (s2.base.taucoord m.toNat j)
          ∧ (grid.getD j []).getD n.toNat 0
            = s2.base.gright (s2.base.taucoord m.toNat j)) ∧
      (∀ i, 1 ≤ i → i ≤ n.toNat - 1 →
        (grid.getD 0 []).getD i 0 = s2.base.f (s2.base.xcoord n.toNat i))) ∧
    (∀ grid, s3.solve_pde n m = .ok grid →
      (∀ j, j ≤ m.toNat →
        (grid.getD j []).getD 0 0
            = s3.base.gleft (s3.base.taucoord m.toNat j)
          ∧ (grid.getD j []).getD n.toNat 0
            = s3.base.gright (s3.base.taucoord m.toNat j)) ∧
      (∀ i, 1 ≤ i → i ≤ n.toNat - 1 →
        (grid.getD 0 []).getD i 0 = s3.base.f (s3.base.xcoord n.toNat i))) ∧
    (∀ grid, s4.solve_pde n m = .ok grid →
      (∀ j, j ≤ m.toNat →
        (grid.getD j []).getD 0 0
            = s4.base.gleft (s4.base.taucoord m.toNat j)
          ∧ (grid.getD j []).getD n.toNat 0
            = s4.base.gright (s4.base.taucoord m.toNat j)) ∧
      (∀ i, 1 ≤ i → i ≤ n.toNat - 1 →
        (grid.getD 0 []).getD i 0 = s4.base.f (s4.base.xcoord n.toNat i))) ∧
    (∀ grid, s5.solve_pde fuel n m = .ok grid →
      (∀ j, j ≤ m.toNat →
        (grid.getD j []).getD 0 0
            = s5.base.gleft (s5.base.taucoord m.toNat j)
          ∧ (grid.getD j []).getD n.toNat 0
            = s5.base.gright (s5.base.taucoord m.toNat j)) ∧
      (∀ i, 1 ≤ i → i ≤ n.toNat - 1 →
        (grid.getD 0 []).getD i 0
          = s5.base.f (s5.base.xcoord n.toNat i))) := by
  refine ⟨?_, ?_, ?_, ?_, ?_⟩
  · intro grid h
    obtain ⟨hv, hg⟩ := fe_solve_ok s1 n m grid h
    obtain ⟨_, _, hnp, hmp⟩ := (validCall_true_iff _ _ _).mp hv
    have hn : 1 ≤ n.toNat := by omega
    subst hg
    refine ⟨fun j hj => ?_, fun i hi1 hi2 => ?_⟩
    · rw [natGrid_getD _ _ _ (by omega)]
      exact ⟨feRow_getD_left s1.base n.toNat m.toNat j,
        feRow_getD_right s1.base n.toNat m.toNat j hn⟩
    · rw [natGrid_getD _ _ _ (by omega), feRow]
      exact initRow_getD_mid s1.base n.toNat i hi1 hi2 hn
  · intro grid h
    obtain ⟨hv, hcoll⟩ := be_solve_ok s2 n m grid h
    obtain ⟨_, _, hnp, hmp⟩ := (validCall_true_iff _ _ _).mp hv
    have hn : 1 ≤ n.toNat := by omega
    have hrow := collectRows_ok_row _ _ _ hcoll
    refine ⟨fun j hj => ?_, fun i hi1 hi2 => ?_⟩
    · exact beRow_boundary s2.base s2.solver n.toNat m.toNat hl2 hn j _
        (hrow j hj)
    · have h0 := hrow 0 (by omega)
      rw [beRow] at h0
      rw [← Except.ok.inj h0]
      exact initRow_getD_mid s2.base n.toNat i hi1 hi2 hn
  · intro grid h
    obtain ⟨hv, hcoll⟩ := cn_solve_ok s3 n m grid h
    obtain ⟨_, _, hnp, hmp⟩ := (validCall_true_iff _ _ _).mp hv
    have hn : 1 ≤ n.toNat := by omega
    have hrow := collectRows_ok_row _ _ _ hcoll
    refine ⟨fun j hj => ?_, fun i hi1 hi2 => ?_⟩
    · exact cnRow_boundary s3.base s3.solver n.toNat m.toNat hl3 hn j _
        (hrow j hj)
    · have h0 := hrow 0 (by omega)
      rw [cnRow] at h0
      rw [← Except.ok.inj h0]
      exact initRow_getD_mid s3.base n.toNat i hi1 hi2 hn
  · intro grid h
    obtain ⟨hv, hg⟩ := eefe_solve_ok s4 n m grid h
    obtain ⟨_, _, hnp, hmp⟩ := (validCall_true_iff _ _ _).mp hv
    have hn : 1 ≤ n.toNat := by omega
    subst hg
    refine ⟨fun j hj => ?_, fun i hi1 hi2 => ?_⟩
    · rw [natGrid_getD _ _ _ (by omega)]
      exact ⟨eefeRow_getD_left s4.base s4.checker n.toNat m.toNat j,
        eefeRow_getD_right s4.base s4.checker n.toNat m.toNat j hn⟩
    · rw [natGrid_getD _ _ _ (by omega), eefeRow]
      exact initRow_getD_mid s4.base n.toNat i hi1 hi2 hn
  · intro grid h
    obtain ⟨hv, hg⟩ := eecn_solve_ok s5 fuel n m grid h
    obtain ⟨_, _, hnp, hmp⟩ := (validCall_true_iff _ _ _).mp hv
    have hn : 1 ≤ n.toNat := by omega
    subst hg
    refine ⟨fun j hj => ?_, fun i hi1 hi2 => ?_⟩
    · rw [natGrid_getD _ _ _ (by omega)]
      exact ⟨eecnRow_getD_left s5.base s5.checker s5.w s5.tol fuel
          n.toNat m.toNat j,
        eecnRow_getD_right s5.base s5.checker s5.w s5.tol fuel
          n.toNat m.toNat j hn⟩
    · rw [natGrid_getD _ _ _ (by omega), eecnRow]
      exact initRow_getD_mid s5.base n.toNat i hi1 hi2 hn

lemma alpha_cfg0 : cfg0.alpha 2 1 = 4 := by
  norm_num [Config.alpha, Config.dx, Config.dtau, cfg0]

lemma initRow_cfg0 : initRow cfg0 2 = [0, (1 : ℚ)/2, 0] := by
  norm_num [initRow, cfg0, Config.xcoord, Config.dx, List.range_succ]

lemma beRow_cfg0_zero : beRow cfg0 tinySolver 2 1 0 = .ok [0, (1 : ℚ)/2, 0] := by
  rw [beRow, initRow_cfg0]

lemma beRhs_cfg0 : beRhs cfg0 2 (cfg0.alpha 2 1) [0, (1 : ℚ)/2, 0]
    (cfg0.taucoord 1 (0 + 1)) = [9/2] := by
  rw [alpha_cfg0]
  norm_num [beRhs, cfg0, Config.taucoord, Config.dtau, List.range_succ]

lemma beSol_cfg0 : tinySolver (-(cfg0.alpha 2 1)) (1 + 2 * cfg0.alpha 2 1)
    (-(cfg0.alpha 2 1)) [(9 : ℚ)/2] = .ok [1/2] := by
  rw [alpha_cfg0]
  norm_num [tinySolver]

lemma beRow_cfg0_one : beRow cfg0 tinySolver 2 1 (0 + 1)
    = .ok [0, (1 : ℚ)/2, 1] := by
  have h := beRow_succ_eq cfg0 tinySolver 2 1 0 [0, (1 : ℚ)/2, 0]
    [(1 : ℚ)/2] beRow_cfg0_zero (by rw [beRhs_cfg0]; exact beSol_cfg0)
  rw [h]
  norm_num [Config.taucoord, Config.dtau, cfg0]

lemma beSolve_cfg0 : BackwardEuler.solve_pde ⟨cfg0, tinySolver⟩ 2 1
    = .ok [[0, (1 : ℚ)/2, 0], [0, (1 : ℚ)/2, 1]] := by
  rw [BackwardEuler.solve_pde, if_pos (by rfl)]
  exact collectRows_succ_eq (beRow cfg0 tinySolver 2 1) 0
    [[0, (1 : ℚ)/2, 0]] [0, (1 : ℚ)/2, 1]
    (collectRows_zero_eq _ _ beRow_cfg0_zero) beRow_cfg0_one

lemma cnRow_cfg0_zero : cnRow cfg0 tinySolver 2 1 0 = .ok [0, (1 : ℚ)/2, 0] := by
  rw [cnRow, initRow_cfg0]

lemma cnRhs_cfg0 : cnRhs cfg0 2 (cfg0.alpha 2 1) [0, (1 : ℚ)/2, 0]
    (cfg0.taucoord 1 (0 + 1)) = [1/2] := by
  rw [alpha_cfg0]
  norm_num [cnRhs, cfg0, Config.taucoord, Config.dtau, List.range_succ]

lemma cnSol_cfg0 : tinySolver (-(cfg0.alpha 2 1) / 2) (1 + cfg0.alpha 2 1)
    (-(cfg0.alpha 2 1) / 2) [(1 : ℚ)/2] = .ok [1/10] := by
  rw [alpha_cfg0]
  norm_num [tinySolver]

lemma cnRow_cfg0_one : cnRow cfg0 tinySolver 2 1 (0 + 1)
    = .ok [0, (1 : ℚ)/10, 1] := by
  have h := cnRow_succ_eq cfg0 tinySolver 2 1 0 [0, (1 : ℚ)/2, 0]
    [(1 : ℚ)/10] cnRow_cfg0_zero (by rw [cnRhs_cfg0]; exact cnSol_cfg0)
  rw [h]
  norm_num [Config.taucoord, Config.dtau, cfg0]

lemma cnSolve_cfg0 : CrankNicolson.solve_pde ⟨cfg0, tinySolver⟩ 2 1
    = .ok [[0, (1 : ℚ)/2, 0], [0, (1 : ℚ)/10, 1]] := by
  rw [CrankNicolson.solve_pde, if_pos (by rfl)]
  exact collectRows_succ_eq (cnRow cfg0 tinySolver 2 1) 0
    [[0, (1 : ℚ)/2, 0]] [0, (1 : ℚ)/10, 1]
    (collectRows_zero_eq _ _ cnRow_cfg0_zero) cnRow_cfg0_one

/-- Witness for C5: concrete boundary and initial entries for all five
variants at n = 2, m = 1. -/
theorem C5_witness :
    ((natGrid (feRow cfg0 2 1) 1).getD 1 []).getD 0 0
        = cfg0.gleft (cfg0.taucoord 1 1) ∧
    ((natGrid (feRow cfg0 2 1) 1).getD 0 []).getD 1 0
        = cfg0.f (cfg0.xcoord 2 1) ∧
    (([[0, (1 : ℚ)/2, 0], [0, (1 : ℚ)/2, 1]].getD 1 []).getD 2 0
        = cfg0.gright (cfg0.taucoord 1 1)) ∧
    (([[0, (1 : ℚ)/2, 0], [0, (1 : ℚ)/10, 1]].getD 0 []).getD 1 0
        = cfg0.f (cfg0.xcoord 2 1)) ∧
    ((natGrid (eefeRow cfg0 exf 2 1) 1).getD 1 []).getD 0 0
        = cfg0.gleft (cfg0.taucoord 1 1) ∧
    ((natGrid (eecnRow cfg0 exf (12 / 10) (1 / 1000000) 5 2 1) 1).getD
          1 []).getD 2 0
        = cfg0.gright (cfg0.taucoord 1 1) := by
  have h := C5_boundary_and_initial_exact ⟨cfg0⟩ ⟨cfg0, tinySolver⟩
    ⟨cfg0, tinySolver⟩ ⟨cfg0, exf⟩ ⟨cfg0, exf, 12 / 10, 1 / 1000000⟩
    5 2 1 tinySolver_len tinySolver_len
  refine ⟨((h.1 _ rfl).1 1 (by decide)).1, (h.1 _ rfl).2 1 (by decide)
    (by decide), ?_, ?_, ((h.2.2.2.1 _ rfl).1 1 (by decide)).1,
    ((h.2.2.2.2 _ rfl).1 1 (by decide)).2⟩
  · exact ((h.2.1 [[0, (1 : ℚ)/2, 0], [0, (1 : ℚ)/2, 1]] beSolve_cfg0).1 1
      (by decide)).2
  · exact (h.2.2.1 [[0, (1 : ℚ)/2, 0], [0, (1 : ℚ)/10, 1]] cnSolve_cfg0).2 1
      (by decide) (by decide)

/-- C7: for valid calls, every variant's successful grid has one time line
per level 0..m and one space value per level 0..n (an (m+1) x (n+1) dense
matrix, rows indexed by time), and the mesh quantities are
dx = (xright - xleft)/n, dtau = taufinal/m, alpha = dtau/dx^2. -/
theorem C7_grid_dimensions_and_mesh (s1 : ForwardEuler) (s2 : BackwardEuler)
    (s3 : CrankNicolson) (s4 : EarlyExForwardEuler)
    (s5 : EarlyExCrankNicolson) (fuel : ℕ) (n m : ℤ)
    (hl2 : SolverKeepsLength s2.solver)
    (hl3 : SolverKeepsLength s3.solver) :
    (∀ (c : Config) (nn mm : ℕ),
      c.dx nn = (c.xright - c.xleft) / nn ∧ c.dtau mm = c.taufinal / mm ∧
      c.alpha nn mm = c.dtau mm / (c.dx nn) ^ 2) ∧
    (∀ grid, s1.solve_pde n m = .ok grid → grid.length = m.toNat + 1 ∧
      ∀ j, j ≤ m.toNat → (grid.getD j []).length = n.toNat + 1) ∧
    (∀ grid, s2.solve_pde n m = .ok grid → grid.length = m.toNat + 1 ∧
      ∀ j, j ≤ m.toNat → (grid.getD j []).length = n.toNat + 1) ∧
    (∀ grid, s3.solve_pde n m = .ok grid → grid.length = m.toNat + 1 ∧
      ∀ j, j ≤ m.toNat → (grid.getD j []).length = n.toNat + 1) ∧
    (∀ grid, s4.solve_pde n m = .ok grid → grid.length = m.toNat + 1 ∧
      ∀ j, j ≤ m.toNat → (grid.getD j []).length = n.toNat + 1) ∧
    (∀ grid, s5.solve_pde fuel n m = .ok grid → grid.length = m.toNat + 1 ∧
      ∀ j, j ≤ m.toNat → (grid.getD j []).length = n.toNat + 1) := by
  refine ⟨fun c nn mm => ⟨rfl, rfl, rfl⟩, ?_, ?_, ?_, ?_, ?_⟩
  · intro grid h
    obtain ⟨hv, hg⟩ := fe_solve_ok s1 n m grid h
    subst hg
    exact ⟨natGrid_length _ _, fun j hj => by
      rw [natGrid_getD _ _ _ (by omega)]
      exact feRow_length s1.base n.toNat m.toNat j⟩
  · intro grid h
    obtain ⟨hv, hcoll⟩ := be_solve_ok s2 n m grid h
    obtain ⟨_, _, hnp, hmp⟩ := (validCall_true_iff _ _ _).mp hv
    have hn : 1 ≤ n.toNat := by omega
    refine ⟨collectRows_ok_length _ _ _ hcoll, fun j hj => ?_⟩
    exact beRow_ok_length s2.base s2.solver n.toNat m.toNat hl2 hn j _
      (collectRows_ok_row _ _ _ hcoll j hj)
  · intro grid h
    obtain ⟨hv, hcoll⟩ := cn_solve_ok s3 n m grid h
    obtain ⟨_, _, hnp, hmp⟩ := (validCall_true_iff _ _ _).mp hv
    have hn : 1 ≤ n.toNat := by omega
    refine ⟨collectRows_ok_length _ _ _ hcoll, fun j hj => ?_⟩
    exact cnRow_ok_length s3.base s3.solver n.toNat m.toNat hl3 hn j _
      (collectRows_ok_row _ _ _ hcoll j hj)
  · intro grid h
    obtain ⟨hv, hg⟩ := eefe_solve_ok s4 n m grid h
    subst hg
    exact ⟨natGrid_length _ _, fun j hj => by
      rw [natGrid_getD _ _ _ (by omega)]
      exact eefeRow_length s4.base s4.checker n.toNat m.toNat j⟩
  · intro grid h
    obtain ⟨hv, hg⟩ := eecn_solve_ok s5 fuel n m grid h
    obtain ⟨_, _, hnp, hmp⟩ := (validCall_true_iff _ _ _).mp hv
    have hn : 1 ≤ n.toNat := by omega
    subst hg
    exact ⟨natGrid_length _ _, fun j hj => by
      rw [natGrid_getD _ _ _ (by omega)]
      exact eecnRow_length s5.base s5.checker s5.w s5.tol fuel
        n.toNat m.toNat hn j⟩

/-- Witness for C7: concrete dimensions and mesh quantities at n = 2,
m = 1. -/
theorem C7_witness :
    (cfg0.dx 2 = (cfg0.xright - cfg0.xleft) / 2 ∧
      cfg0.dtau 1 = cfg0.taufinal / 1 ∧
      cfg0.alpha 2 1 = cfg0.dtau 1 / (cfg0.dx 2) ^ 2) ∧
    (natGrid (feRow cfg0 2 1) 1).length = 2 ∧
    ((natGrid (feRow cfg0 2 1) 1).getD 1 []).length = 3 ∧
    ([[0, (1 : ℚ)/2, 0], [0, (1 : ℚ)/2, 1]] : List (List ℚ)).length = 2 ∧
    (([[0, (1 : ℚ)/2, 0], [0, (1 : ℚ)/2, 1]] : List (List ℚ)).getD
        1 []).length = 3 ∧
    (natGrid (eecnRow cfg0 exf (12 / 10) (1 / 1000000) 5 2 1) 1).length
      = 2 := by
  have h := C7_grid_dimensions_and_mesh ⟨cfg0⟩ ⟨cfg0, tinySolver⟩
    ⟨cfg0, tinySolver⟩ ⟨cfg0, exf⟩ ⟨cfg0, exf, 12 / 10, 1 / 1000000⟩
    5 2 1 tinySolver_len tinySolver_len
  refine ⟨h.1 cfg0 2 1, (h.2.1 _ rfl).1, (h.2.1 _ rfl).2 1 (by decide),
    (h.2.2.1 _ beSolve_cfg0).1, (h.2.2.1 _ beSolve_cfg0).2 1 (by decide),
    (h.2.2.2.2.2 _ rfl).1⟩

/-- C2: the projected SOR of EarlyExCrankNicolson starts each time row
from the exercise-value vector at the target row; each sweep updates
entries in increasing order with the Gauss-Seidel candidate from the
coefficients (-alpha/2, 1+alpha, -alpha/2), applies relaxation
new = old + w*(cand - old) and immediately projects onto the exercise
value (so later entries see already-projected earlier ones); the sweep
loop stops exactly when the maximum absolute change of a full sweep is
below tol; the defaults are w = 1.2 and tol = 1e-6. -/
theorem C2_projected_sor_mechanics :
    (∀ (a w tol : ℚ) (b g : List ℚ) (fuel : ℕ),
      projected_sor a w tol b g fuel = sorLoop a w tol b g fuel g) ∧
    (∀ (a w : ℚ) (b g u : List ℚ) (k : ℕ),
      b.length = g.length → u.length = g.length → k < g.length →
      (sorSweep a w b g u).getD k 0
        = max (u.getD k 0 + w * ((b.getD k 0
              + (a / 2) * (if k = 0 then 0
                  else (sorSweep a w b g u).getD (k - 1) 0)
              + (a / 2) * u.getD (k + 1) 0) / (1 + a)
            - u.getD k 0))
          (g.getD k 0)) ∧
    (∀ (a w tol : ℚ) (b g u : List ℚ) (fuel : ℕ),
      (maxAbsDiff u (sorSweep a w b g u) < tol →
        sorLoop a w tol b g (fuel + 1) u = sorSweep a w b g u) ∧
      (¬ maxAbsDiff u (sorSweep a w b g u) < tol →
        sorLoop a w tol b g (fuel + 1) u
          = sorLoop a w tol b g fuel (sorSweep a w b g u))) ∧
    (∀ (c : Config) (gf : ℚ → ℚ → ℚ) (w tol : ℚ) (fuel n m j : ℕ),
      eecnRow c gf w tol fuel n m (j + 1)
        = c.gleft (c.taucoord m (j + 1))
          :: (projected_sor (c.alpha n m) w tol
              (cnRhs c n (c.alpha n m) (eecnRow c gf w tol fuel n m j)
                (c.taucoord m (j + 1)))
              (exVec c gf n (c.taucoord m (j + 1))) fuel
            ++ [c.gright (c.taucoord m (j + 1))])) ∧
    (sorDefaultW = 12 / 10 ∧ sorDefaultTol = 1 / 1000000 ∧
      ∀ (c : Config) (gf : ℚ → ℚ → ℚ),
        EarlyExCrankNicolson.mkDefault c gf
          = ⟨c, gf, sorDefaultW, sorDefaultTol⟩) := by
  refine ⟨fun a w tol b g fuel => rfl,
    fun a w b g u k hb hu hk => sorSweep_getD a w b g u k hb hu hk,
    fun a w tol b g u fuel => ⟨fun h => ?_, fun h => ?_⟩,
    fun c gf w tol fuel n m j => by rw [eecnRow],
    rfl, rfl, fun c gf => rfl⟩
  · rw [sorLoop]
    simp only [h, if_true]
  · rw [sorLoop]
    simp only [h, if_false]

/-- Witness for C2: the sweep characterization at a concrete one-entry
system. -/
theorem C2_witness :
    (sorSweep 2 1 [1] [0] [0]).getD 0 0
      = max (([0] : List ℚ).getD 0 0 + 1 * ((([1] : List ℚ).getD 0 0
            + ((2 : ℚ) / 2) * (if (0 : ℕ) = 0 then 0
                else (sorSweep 2 1 [1] [0] [0]).getD (0 - 1) 0)
            + ((2 : ℚ) / 2) * ([0] : List ℚ).getD (0 + 1) 0) / (1 + 2)
          - ([0] : List ℚ).getD 0 0))
        (([0] : List ℚ).getD 0 0) :=
  C2_projected_sor_mechanics.2.1 2 1 [1] [0] [0] 0 rfl rfl (by decide)

/-- C4: each implicit time row, on success, is exactly the solution of the
specified constant tridiagonal system: Backward Euler with diagonal
1+2*alpha, off-diagonals -alpha and right-hand side `beRhs` (old row plus
new-time boundary corrections); Crank-Nicolson with diagonal 1+alpha,
off-diagonals -alpha/2 and right-hand side `cnRhs` (weighted old-row
neighbours plus boundary corrections); the system is solved by the
injected linear solver. -/
theorem C4_implicit_rows_solve_tridiagonal (c : Config) (ls : LinearSolver)
    (n m j : ℕ) (hex : ExactSolver ls) :
    (∀ prev r, beRow c ls n m j = .ok prev →
      beRow c ls n m (j + 1) = .ok r →
      r = c.gleft (c.taucoord m (j + 1))
          :: (((r.drop 1).dropLast) ++ [c.gright (c.taucoord m (j + 1))]) ∧
      TriSolves (-(c.alpha n m)) (1 + 2 * c.alpha n m) (-(c.alpha n m))
        (beRhs c n (c.alpha n m) prev (c.taucoord m (j + 1)))
        ((r.drop 1).dropLast)) ∧
    (∀ prev r, cnRow c ls n m j = .ok prev →
      cnRow c ls n m (j + 1) = .ok r →
      r = c.gleft (c.taucoord m (j + 1))
          :: (((r.drop 1).dropLast) ++ [c.gright (c.taucoord m (j + 1))]) ∧
      TriSolves (-(c.alpha n m) / 2) (1 + c.alpha n m) (-(c.alpha n m) / 2)
        (cnRhs c n (c.alpha n m) prev (c.taucoord m (j + 1)))
        ((r.drop 1).dropLast)) := by
  constructor
  · intro prev r hp hr
    obtain ⟨prev', sol, hp', hs, hrform⟩ := beRow_ok_succ c ls n m j r hr
    have hpp : prev' = prev := Except.ok.inj (hp'.symm.trans hp)
    subst hpp
    subst hrform
    have hd : ((c.gleft (c.taucoord m (j + 1))
        :: (sol ++ [c.gright (c.taucoord m (j + 1))])).drop 1).dropLast
        = sol := by
      simp
    rw [hd]
    exact ⟨rfl, hex _ _ _ _ _ hs⟩
  · intro prev r hp hr
    obtain ⟨prev', sol, hp', hs, hrform⟩ := cnRow_ok_succ c ls n m j r hr
    have hpp : prev' = prev := Except.ok.inj (hp'.symm.trans hp)
    subst hpp
    subst hrform
    have hd : ((c.gleft (c.taucoord m (j + 1))
        :: (sol ++ [c.gright (c.taucoord m (j + 1))])).drop 1).dropLast
        = sol := by
      simp
    rw [hd]
    exact ⟨rfl, hex _ _ _ _ _ hs⟩

/-- Witness for C4: the concrete first Backward-Euler and Crank-Nicolson
rows at n = 2, m = 1 solve their tridiagonal systems. -/
theorem C4_witness :
    ([0, (1 : ℚ)/2, 1] = cfg0.gleft (cfg0.taucoord 1 (0 + 1))
        :: ((([0, (1 : ℚ)/2, 1].drop 1).dropLast)
          ++ [cfg0.gright (cfg0.taucoord 1 (0 + 1))]) ∧
      TriSolves (-(cfg0.alpha 2 1)) (1 + 2 * cfg0.alpha 2 1)
        (-(cfg0.alpha 2 1))
        (beRhs cfg0 2 (cfg0.alpha 2 1) [0, (1 : ℚ)/2, 0]
          (cfg0.taucoord 1 (0 + 1)))
        (([0, (1 : ℚ)/2, 1].drop 1).dropLast)) ∧
    ([0, (1 : ℚ)/10, 1] = cfg0.gleft (cfg0.taucoord 1 (0 + 1))
        :: ((([0, (1 : ℚ)/10, 1].drop 1).dropLast)
          ++ [cfg0.gright (cfg0.taucoord 1 (0 + 1))]) ∧
      TriSolves (-(cfg0.alpha 2 1) / 2) (1 + cfg0.alpha 2 1)
        (-(cfg0.alpha 2 1) / 2)
        (cnRhs cfg0 2 (cfg0.alpha 2 1) [0, (1 : ℚ)/2, 0]
          (cfg0.taucoord 1 (0 + 1)))
        (([0, (1 : ℚ)/10, 1].drop 1).dropLast)) :=
  ⟨(C4_implicit_rows_solve_tridiagonal cfg0 tinySolver 2 1 0
      tinySolver_exact).1 [0, (1 : ℚ)/2, 0] [0, (1 : ℚ)/2, 1]
      beRow_cfg0_zero beRow_cfg0_one,
    (C4_implicit_rows_solve_tridiagonal cfg0 tinySolver 2 1 0
      tinySolver_exact).2 [0, (1 : ℚ)/2, 0] [0, (1 : ℚ)/10, 1]
      cnRow_cfg0_zero cnRow_cfg0_one⟩

/-- C9: if the injected linear solver fails at any time row, the implicit
solvers report exactly that failure from solve (no retry, never an
incomplete grid); on success the grid is complete (all m+1 rows
present). -/
theorem C9_solver_failure_propagation (s2 : BackwardEuler)
    (s3 : CrankNicolson) (n m : ℤ) (k : ℕ) (e : String) :
    (validCall s2.base n m = true → k ≤ m.toNat →
      beRow s2.base s2.solver n.toNat m.toNat k = .error e →
      s2.solve_pde n m = .error e) ∧
    (∀ grid, s2.solve_pde n m = .ok grid → grid.length = m.toNat + 1) ∧
    (validCall s3.base n m = true → k ≤ m.toNat →
      cnRow s3.base s3.solver n.toNat m.toNat k = .error e →
      s3.solve_pde n m = .error e) ∧
    (∀ grid, s3.solve_pde n m = .ok grid → grid.length = m.toNat + 1) := by
  refine ⟨fun hv hk hrk => ?_, fun grid h => ?_, fun hv hk hrk => ?_,
    fun grid h => ?_⟩
  · rw [BackwardEuler.solve_pde, if_pos hv]
    exact collectRows_of_row_error _ _ k e hk hrk
      (fun j e' h => beRow_error_succ s2.base s2.solver n.toNat m.toNat
        j e' h)
  · obtain ⟨hv, hcoll⟩ := be_solve_ok s2 n m grid h
    exact collectRows_ok_length _ _ _ hcoll
  · rw [CrankNicolson.solve_pde, if_pos hv]
    exact collectRows_of_row_error _ _ k e hk hrk
      (fun j e' h => cnRow_error_succ s3.base s3.solver n.toNat m.toNat
        j e' h)
  · obtain ⟨hv, hcoll⟩ := cn_solve_ok s3 n m grid h
    exact collectRows_ok_length _ _ _ hcoll

/-- Witness for C9: with an always-failing injected solver at n = 2,
m = 1, both implicit solvers report exactly the solver's error. -/
theorem C9_witness :
    BackwardEuler.solve_pde ⟨cfg0, failSolver⟩ 2 1
      = .error "singular system" ∧
    CrankNicolson.solve_pde ⟨cfg0, failSolver⟩ 2 1
      = .error "singular system" :=
  ⟨(C9_solver_failure_propagation ⟨cfg0, failSolver⟩ ⟨cfg0, failSolver⟩
      2 1 1 "singular system").1 rfl (by decide) rfl,
    (C9_solver_failure_propagation ⟨cfg0, failSolver⟩ ⟨cfg0, failSolver⟩
      2 1 1 "singular system").2.2.1 rfl (by decide) rfl⟩
